import Mathlib

/-!
Shallow embedding of the BetterDiscord VimMotions plugin
(src/scripts/build.js, embedded plugin source; src/plugins/VimMotions.plugin.js).

JavaScript Map objects keyed by channel id (draftCache, lastProcessedDraft)
and the host draft store (DraftActions/DraftStore, slot 0) are modelled as
association lists with JS Map semantics (set keeps position, get returns the
stored value, delete removes the entry).  Machine integers do not occur; all
counters are Nat, cursor columns that the source clamps with Math.max(0, _)
are computed in Int exactly as the source writes them.
-/

namespace VimMotions

/-- Association map with JavaScript Map semantics: lookup. -/
def mapGet {α : Type} : List (String × α) → String → Option α
  | [], _ => none
  | (k, v) :: rest, key => if k = key then some v else mapGet rest key

/-- Association map with JavaScript Map semantics: Map.set (overwrite in place, else append). -/
def mapSet {α : Type} : List (String × α) → String → α → List (String × α)
  | [], key, v => [(key, v)]
  | (k, w) :: rest, key, v =>
    if k = key then (key, v) :: rest else (k, w) :: mapSet rest key v

/-- Association map with JavaScript Map semantics: Map.delete. -/
def mapDelete {α : Type} : List (String × α) → String → List (String × α)
  | [], _ => []
  | (k, w) :: rest, key =>
    if k = key then mapDelete rest key else (k, w) :: mapDelete rest key

/-- JavaScript String.prototype.trim: strip whitespace from both ends
(modelled on the character list). -/
def jsTrim (s : String) : String :=
  String.mk (List.rdropWhile Char.isWhitespace (List.dropWhile Char.isWhitespace s.data))

/-- JavaScript String.prototype.includes: substring containment. -/
def strIncludes (s pat : String) : Bool :=
  pat.isEmpty || s.data.tails.any (fun t => pat.data.isPrefixOf t)

/-- JavaScript String.prototype.startsWith, modelled on the character list. -/
def strStartsWith (s p : String) : Bool :=
  p.data.isPrefixOf s.data

/-- Insertion of text at a cursor offset of the editor buffer
(Ace session.insert at the cursor position, buffer viewed as a flat string). -/
def insertAt (s : String) (off : Nat) (t : String) : String :=
  String.mk (s.data.take off ++ t.data ++ s.data.drop off)

/-- One custom mapping entry from the settings (fields from/to/mode in the source;
from and to are Lean keywords, hence fromKey/toKey). -/
structure Mapping where
  fromKey : String
  toKey : String
  mode : String
deriving Repr, DecidableEq

/-- Plugin configuration (this.config). -/
structure Config where
  debugMode : Bool
  fontSize : Nat
  fontFamily : String
  fontColor : String
  backgroundColor : String
  cursorColor : String
  highlightActiveLine : Bool
  sendInInsertMode : Bool
  sendInNormalMode : Bool
deriving Repr, DecidableEq

/-- The defaultConfig object from the constructor. -/
def defaultConfig : Config where
  debugMode := false
  fontSize := 16
  fontFamily := "Consolas"
  fontColor := "#e3e3e3"
  backgroundColor := "#222327"
  cursorColor := "#a52327"
  highlightActiveLine := false
  sendInInsertMode := false
  sendInNormalMode := true

/-- Fields that may or may not be present on a saved settings object
(absent JS properties are none). -/
structure PartialSettings where
  debugMode : Option Bool := none
  fontSize : Option Nat := none
  fontFamily : Option String := none
  fontColor : Option String := none
  backgroundColor : Option String := none
  cursorColor : Option String := none
  highlightActiveLine : Option Bool := none
  sendInInsertMode : Option Bool := none
  sendInNormalMode : Option Bool := none
  customMappings : Option (List Mapping) := none
deriving Repr, DecidableEq

/-- Shape of the object stored under BdApi.Data key config: optionally a nested
settings object, plus the same fields directly on the object (flat). -/
structure SavedData where
  settings : Option PartialSettings := none
  flat : PartialSettings := {}
deriving Repr, DecidableEq

/-- The JS chain a ?? b ?? d. -/
def pick {α : Type} (nested flat : Option α) (d : α) : α :=
  (nested <|> flat).getD d

/-- loadConfig (build.js lines 312-363): normalize saved data (or fall back to
defaultConfig) into a Config and the customMappings list. -/
def loadConfig : Option SavedData → Config × List Mapping
  | none => (defaultConfig, [])
  | some s =>
    ({ debugMode := pick (s.settings.bind PartialSettings.debugMode)
         s.flat.debugMode defaultConfig.debugMode
       fontSize := pick (s.settings.bind PartialSettings.fontSize)
         s.flat.fontSize defaultConfig.fontSize
       fontFamily := pick (s.settings.bind PartialSettings.fontFamily)
         s.flat.fontFamily defaultConfig.fontFamily
       fontColor := pick (s.settings.bind PartialSettings.fontColor)
         s.flat.fontColor defaultConfig.fontColor
       backgroundColor := pick (s.settings.bind PartialSettings.backgroundColor)
         s.flat.backgroundColor defaultConfig.backgroundColor
       cursorColor := pick (s.settings.bind PartialSettings.cursorColor)
         s.flat.cursorColor defaultConfig.cursorColor
       highlightActiveLine := pick (s.settings.bind PartialSettings.highlightActiveLine)
         s.flat.highlightActiveLine defaultConfig.highlightActiveLine
       sendInInsertMode := pick (s.settings.bind PartialSettings.sendInInsertMode)
         s.flat.sendInInsertMode defaultConfig.sendInInsertMode
       sendInNormalMode := pick (s.settings.bind PartialSettings.sendInNormalMode)
         s.flat.sendInNormalMode defaultConfig.sendInNormalMode },
     pick s.flat.customMappings (s.settings.bind PartialSettings.customMappings) [])

/-- saveConfig (build.js lines 365-379): the object written back to storage is
flat (no nested settings key) and carries every field plus customMappings. -/
def saveConfigData (c : Config) (ms : List Mapping) : SavedData where
  settings := none
  flat :=
    { debugMode := some c.debugMode
      fontSize := some c.fontSize
      fontFamily := some c.fontFamily
      fontColor := some c.fontColor
      backgroundColor := some c.backgroundColor
      cursorColor := some c.cursorColor
      highlightActiveLine := some c.highlightActiveLine
      sendInInsertMode := some c.sendInInsertMode
      sendInNormalMode := some c.sendInNormalMode
      customMappings := some ms }

/-- Whole loadConfig call including its final saveConfig: returns the in-memory
config, the customMappings, and the new storage contents. -/
def loadConfigRun (store : Option SavedData) : Config × List Mapping × Option SavedData :=
  let p := loadConfig store
  (p.1, p.2, some (saveConfigData p.1 p.2))

/-- One browser keydown event, restricted to the fields the source reads. -/
structure KeyEvent where
  key : String
  shiftKey : Bool := false
  ctrlKey : Bool := false
  altKey : Bool := false
  metaKey : Bool := false
  isComposing : Bool := false
deriving Repr, DecidableEq

/-- Ace cursor position (editor.getCursorPosition). -/
structure Pos where
  row : Nat
  column : Nat
deriving Repr, DecidableEq

/-- State kept per configured multi-key sequence (initializeKeySequences). -/
structure SeqState where
  buffer : List String
  lastTime : Nat
  timeout : Nat
  action : String
  mode : String
deriving Repr, DecidableEq

/-- The keySequences Map: from-string to per-sequence state. -/
abbrev KeySequences := List (String × SeqState)

/-- Fresh sequence state for one mapping. -/
def mkSeqState (m : Mapping) : SeqState where
  buffer := []
  lastTime := 0
  timeout := 1000
  action := m.toKey
  mode := m.mode

/-- initializeKeySequences (build.js lines 1637-1651): collect every mapping whose
from string is longer than one character and does not start with a left angle
bracket into the sequence Map. -/
def addSequence (seqs : KeySequences) (m : Mapping) : KeySequences :=
  if m.fromKey.length > 1 ∧ strStartsWith m.fromKey "<" = false then
    mapSet seqs m.fromKey (mkSeqState m)
  else seqs

/-- initializeKeySequences continued: fold the conditional set over the
customMappings list (forEach). -/
def initializeKeySequences (customMappings : List Mapping) : KeySequences :=
  customMappings.foldl addSequence []

/-- Result of the per-entry body of the first loop of handleKeySequence. -/
structure StepOut where
  state : SeqState
  matched : Bool
deriving Repr, DecidableEq

/-- Body of the first for-loop of handleKeySequence (build.js lines 1710-1725) for
one in-mode entry: reset the buffer on timeout, push the key, record the time,
then compare against the target keys.  now - lastTime is Nat subtraction; the
source computes a JS number, and since timeout is always the positive constant
1000 the comparison timeDiff >= timeout agrees with the truncated form. -/
def seqStep (key : String) (now : Nat) (keys : String) (s : SeqState) : StepOut :=
  let buf0 := if s.timeout ≤ now - s.lastTime then [] else s.buffer
  let buf1 := buf0 ++ [key]
  let s1 : SeqState := { s with buffer := buf1, lastTime := now }
  let bufferStr := String.join buf1
  if bufferStr = keys then { state := s1, matched := true }
  else if strStartsWith keys bufferStr = false then
    if strStartsWith keys key = false then { state := { s1 with buffer := [] }, matched := false }
    else { state := { s1 with buffer := [key] }, matched := false }
  else { state := s1, matched := false }

/-- The first for-loop of handleKeySequence: entries whose mode differs from the
current mode are skipped; on an exact match the loop breaks, leaving the
remaining entries untouched. -/
def seqLoop (mode key : String) (now : Nat) :
    KeySequences → KeySequences × Option (String × SeqState)
  | [] => ([], none)
  | (keys, s) :: rest =>
    if s.mode ≠ mode then
      let r := seqLoop mode key now rest
      ((keys, s) :: r.1, r.2)
    else
      let out := seqStep key now keys s
      if out.matched then ((keys, out.state) :: rest, some (keys, out.state))
      else
        let r := seqLoop mode key now rest
        ((keys, out.state) :: r.1, r.2)

/-- Range handed to Ace session.remove; columns are Int because the source
computes Math.max(0, pos.column - charsToRemove) on JS numbers. -/
structure RemoveRange where
  startRow : Nat
  startCol : Int
  endRow : Nat
  endCol : Int
deriving Repr, DecidableEq

/-- Clearing of every buffer and timestamp after a successful match
(build.js lines 1749-1752). -/
def clearAllSequences (ks : KeySequences) : KeySequences :=
  ks.map (fun p => (p.1, { p.2 with buffer := [], lastTime := 0 }))

/-- Observable outcome of one handleKeySequence call. -/
structure HKSResult where
  consumed : Bool
  prevented : Bool
  seqs : KeySequences
  removeRange : Option RemoveRange
  escSent : Bool
  matchedSeq : Option (String × SeqState)
deriving Repr, DecidableEq

/-- handleKeySequence (build.js lines 1706-1763).  The trailing loop that only
returns false either way is observationally a constant and is not replayed. -/
def handleKeySequence (currentMode : String) (e : KeyEvent) (now : Nat)
    (pos : Pos) (vimModePresent : Bool) (keySequences : KeySequences) : HKSResult :=
  let r := seqLoop currentMode e.key now keySequences
  match r.2 with
  | some (keys, sequence) =>
    let charsToRemove : Nat := keys.length - 1
    let removeRange : Option RemoveRange :=
      if charsToRemove > 0 then
        some { startRow := pos.row
               startCol := max 0 ((pos.column : Int) - (charsToRemove : Int))
               endRow := pos.row
               endCol := (pos.column : Int) }
      else none
    { consumed := true
      prevented := true
      seqs := clearAllSequences r.1
      removeRange := removeRange
      escSent := decide (sequence.action = "<Esc>") && vimModePresent
      matchedSeq := some (keys, sequence) }
  | none =>
    { consumed := false
      prevented := false
      seqs := r.1
      removeRange := none
      escSent := false
      matchedSeq := none }

/-- The three channel-keyed stores the plugin touches: the host draft store
(DraftActions/DraftStore at slot 0), this.draftCache, this.lastProcessedDraft. -/
structure DraftState where
  drafts : List (String × String)
  draftCache : List (String × String)
  lastProcessedDraft : List (String × String)
deriving Repr, DecidableEq

/-- Outcome of sendMessage: the new stores and, when MessageActions.sendMessage
was invoked, the channel id and trimmed content passed to it. -/
structure SendResult where
  st : DraftState
  sent : Option (Option String × String)
deriving Repr, DecidableEq

/-- sendMessage (build.js lines 1992-2033): validate content, call the host
sendMessage, then clear draft, cache and last-processed entry for the channel
(only when the channel id is truthy and DraftActions resolved). -/
def sendMessage (st : DraftState) (channelId : Option String)
    (draftActionsPresent : Bool) (content : String) : SendResult :=
  if jsTrim content = "" then { st := st, sent := none }
  else
    match channelId, draftActionsPresent with
    | some c, true =>
      { st := { drafts := mapDelete st.drafts c
                draftCache := mapDelete st.draftCache c
                lastProcessedDraft := mapDelete st.lastProcessedDraft c }
        sent := some (channelId, jsTrim content) }
    | _, _ => { st := st, sent := some (channelId, jsTrim content) }

/-- Observable outcome of handleEnterKey. -/
structure EnterResult where
  prevented : Bool
  sent : Option (Option String × String)
  edited : Option String
  editorValue : String
  st : DraftState
  vimInsertKeySent : Bool
deriving Repr, DecidableEq

/-- handleEnterKey (build.js lines 1765-1798): send or edit on Enter depending on
the sendInInsertMode / sendInNormalMode settings and the current mode. -/
def handleEnterKey (config : Config) (currentMode : String) (isEditMode : Bool)
    (editorValue : String) (st : DraftState) (channelId : Option String)
    (draftActionsPresent vimModePresent : Bool) : EnterResult :=
  if (config.sendInInsertMode = true ∧ currentMode = "insert") ∨
      (config.sendInNormalMode = true ∧ currentMode ≠ "insert") then
    let content := jsTrim editorValue
    if content = "" then
      { prevented := true, sent := none, edited := none
        editorValue := editorValue, st := st, vimInsertKeySent := false }
    else if isEditMode then
      { prevented := true, sent := none, edited := some content
        editorValue := editorValue, st := st, vimInsertKeySent := false }
    else
      let r := sendMessage st channelId draftActionsPresent content
      { prevented := true, sent := r.sent, edited := none
        editorValue := "", st := r.st, vimInsertKeySent := vimModePresent }
  else
    { prevented := false, sent := none, edited := none
      editorValue := editorValue, st := st, vimInsertKeySent := false }

/-- The twelve Vim command keys that trigger mode changes (build.js lines 1668-1681). -/
def vimModeChangeKeys : List String :=
  ["i", "a", "I", "A", "o", "O", "s", "S", "c", "C", "r", "R"]

/-- Per-keydown context: plugin fields and editor observations read by
handleKeydown. -/
structure KdCtx where
  config : Config
  currentMode : String
  justEnteredInsertMode : Bool
  isEditMode : Bool
  vimModePresent : Bool
  editorDestroyed : Bool
  editorValue : String
  st : DraftState
  channelId : Option String
  draftActionsPresent : Bool
  now : Nat
  pos : Pos
  keySequences : KeySequences
deriving Repr, DecidableEq

/-- Observable outcome of one handleKeydown call. -/
structure KeydownResult where
  prevented : Bool
  inserted : Option String
  seqConsumed : Bool
  seqs : KeySequences
  removeRange : Option RemoveRange
  escSent : Bool
  enter : Option EnterResult
deriving Repr, DecidableEq

/-- A keydown that fell through to the modal engine: nothing prevented, nothing
inserted. -/
def noKeydownEffect (seqs : KeySequences) : KeydownResult where
  prevented := false
  inserted := none
  seqConsumed := false
  seqs := seqs
  removeRange := none
  escSent := false
  enter := none

/-- Tail of handleKeydown (build.js lines 1668-1703): skip insertion right after a
normal-to-insert transition via a mode-change key, otherwise insert printable
characters manually while in insert mode. -/
def insertPhase (ctx : KdCtx) (e : KeyEvent) (seqs : KeySequences) : KeydownResult :=
  let shouldSkipInsertion :=
    ctx.justEnteredInsertMode = true ∧ e.key ∈ vimModeChangeKeys
  if ¬ shouldSkipInsertion ∧ ctx.currentMode = "insert" ∧ e.key.length = 1 ∧
      e.ctrlKey = false ∧ e.altKey = false ∧ e.metaKey = false then
    { noKeydownEffect seqs with prevented := true, inserted := some e.key }
  else noKeydownEffect seqs

/-- handleKeydown (build.js lines 1653-1704).  The keySequences Map the listener
closes over is always a (possibly empty) Map, hence always truthy, so the
source guard and keySequences reduces to the Map itself. -/
def handleKeydown (ctx : KdCtx) (e : KeyEvent) : KeydownResult :=
  if ctx.editorDestroyed = true then noKeydownEffect ctx.keySequences
  else if e.isComposing = true ∨ e.key = "Process" then noKeydownEffect ctx.keySequences
  else if e.key = "Enter" ∧ e.shiftKey = false then
    let r := handleEnterKey ctx.config ctx.currentMode ctx.isEditMode
      ctx.editorValue ctx.st ctx.channelId ctx.draftActionsPresent ctx.vimModePresent
    { noKeydownEffect ctx.keySequences with prevented := r.prevented, enter := some r }
  else if ctx.currentMode = "insert" ∧ e.key.length = 1 then
    let r := handleKeySequence ctx.currentMode e ctx.now ctx.pos
      ctx.vimModePresent ctx.keySequences
    if r.consumed = true then
      { prevented := r.prevented, inserted := none, seqConsumed := true
        seqs := r.seqs, removeRange := r.removeRange, escSent := r.escSent
        enter := none }
    else insertPhase ctx e r.seqs
  else insertPhase ctx e ctx.keySequences

/-- saveCurrentChannelDraft (build.js lines 1088-1120), content resolution: the
content comes from the cache, else from the active main-chat editor
(mainEditorValue, none when no main-chat editor exists). -/
def resolvedDraftContent (st : DraftState) (channelId : String)
    (mainEditorValue : Option String) : String :=
  let cached := (mapGet st.draftCache channelId).getD ""
  if cached = "" then mainEditorValue.getD cached else cached

/-- saveCurrentChannelDraft continued: clear-or-save decision on the resolved
content. -/
def saveCurrentChannelDraft (st : DraftState) (channelId : String)
    (mainEditorValue : Option String) : DraftState :=
  let content := resolvedDraftContent st channelId mainEditorValue
  if jsTrim content = "" then
    { st with drafts := mapDelete st.drafts channelId
              draftCache := mapDelete st.draftCache channelId }
  else
    { st with drafts := mapSet st.drafts channelId content }

/-- handleChannelChange (build.js lines 1054-1063): on CHANNEL_SELECT, save the
draft of the previous channel when it exists and differs, then remember the new
channel id. -/
def handleChannelChange (st : DraftState)
    (previousChannelId newChannelId : Option String)
    (mainEditorValue : Option String) : DraftState × Option String :=
  let st1 :=
    match previousChannelId with
    | some p => if some p ≠ newChannelId then saveCurrentChannelDraft st p mainEditorValue else st
    | none => st
  (st1, newChannelId)

/-- Outcome of loadInitialContent: the possibly updated cache and the content, if
any, written into the fresh editor via setValue. -/
structure LoadResult where
  draftCache : List (String × String)
  editorSet : Option String
deriving Repr, DecidableEq

/-- loadInitialContent (build.js lines 1395-1462): edit mode loads the extracted
message text; the main chat input prefers the cache, then the draft store
(caching what it finds), then the original input text. -/
def loadInitialContent (draftCache drafts : List (String × String))
    (channelId : Option String) (isEditMode : Bool)
    (editModeText fallbackText : String) (draftStorePresent : Bool) : LoadResult :=
  if isEditMode then
    if jsTrim editModeText = "" then { draftCache := draftCache, editorSet := none }
    else { draftCache := draftCache, editorSet := some editModeText }
  else
    match channelId with
    | none => { draftCache := draftCache, editorSet := none }
    | some c =>
      let cached := (mapGet draftCache c).getD ""
      if jsTrim cached ≠ "" then { draftCache := draftCache, editorSet := some cached }
      else
        let draft := if draftStorePresent then (mapGet drafts c).getD "" else ""
        if draftStorePresent ∧ jsTrim draft ≠ "" then
          { draftCache := mapSet draftCache c draft, editorSet := some draft }
        else if jsTrim fallbackText ≠ "" then
          { draftCache := draftCache, editorSet := some fallbackText }
        else { draftCache := draftCache, editorSet := none }

/-- lastProcessedDraft lookup with the JS default of the empty string
(build.js line 1155). -/
def lastProcessedOf (st : DraftState) (c : String) : String :=
  (mapGet st.lastProcessedDraft c).getD ""

/-- hasCachedDraft (build.js lines 1192-1194): the cache holds a non-whitespace
entry for the channel. -/
def hasCachedDraft (st : DraftState) (c : String) : Bool :=
  match mapGet st.draftCache c with
  | some x => jsTrim x != ""
  | none => false

/-- newContent computation (build.js lines 1205-1221): when the draft strictly
extends the last processed draft as a prefix, only the trimmed suffix; else the
whole trimmed draft. -/
def newDraftContent (lastProcessed draftContent : String) : String :=
  if lastProcessed ≠ "" ∧ strStartsWith draftContent lastProcessed = true then
    jsTrim (draftContent.drop lastProcessed.length)
  else jsTrim draftContent

/-- Outcome of the DRAFT_CHANGE handler: new stores, the text inserted into the
editor (if any), and the editor content after the handler. -/
structure DraftChangeResult where
  st : DraftState
  inserted : Option String
  editorValue : String
deriving Repr, DecidableEq

/-- handleDraftChange (build.js lines 1145-1266): reconcile a Discord draft
change (emoji picker) into the Ace editor.  The editor buffer is viewed as a
flat string with the cursor at offset cursorOff. -/
def handleDraftChange (st : DraftState) (currentChannelId : Option String)
    (dataChannelId : String) (editorPresent : Bool) (editorValue : String)
    (cursorOff : Nat) : DraftChangeResult :=
  match currentChannelId with
  | none => { st := st, inserted := none, editorValue := editorValue }
  | some c =>
    if dataChannelId ≠ c then { st := st, inserted := none, editorValue := editorValue }
    else
      let draftContent := (mapGet st.drafts c).getD ""
      if jsTrim draftContent = "" then { st := st, inserted := none, editorValue := editorValue }
      else
        let lastProcessed := lastProcessedOf st c
        if lastProcessed = draftContent then
          { st := st, inserted := none, editorValue := editorValue }
        else if editorPresent = false then
          { st := st, inserted := none, editorValue := editorValue }
        else if strIncludes editorValue (jsTrim draftContent) then
          { st := { st with drafts := mapDelete st.drafts c
                            lastProcessedDraft := mapSet st.lastProcessedDraft c draftContent }
            inserted := none, editorValue := editorValue }
        else
          if jsTrim editorValue = "" ∧ hasCachedDraft st c = true then
            { st := st, inserted := none, editorValue := editorValue }
          else
            let newContent := newDraftContent lastProcessed draftContent
            if newContent = "" then
              { st := { st with lastProcessedDraft := mapSet st.lastProcessedDraft c draftContent }
                inserted := none, editorValue := editorValue }
            else
              let newValue := insertAt editorValue cursorOff newContent
              { st := { drafts := mapDelete st.drafts c
                        draftCache := mapSet st.draftCache c newValue
                        lastProcessedDraft := mapSet st.lastProcessedDraft c draftContent }
                inserted := some newContent
                editorValue := newValue }

/-- The three mode CSS classes (build.js lines 1817-1825). -/
def modeClasses : List String :=
  ["vim-insert-mode", "vim-normal-mode", "vim-visual-mode"]

/-- Class added for a reported mode: insert and visual get their own class,
anything else is styled as normal. -/
def modeClassFor (reported : String) : String :=
  if reported = "insert" then "vim-insert-mode"
  else if reported = "visual" then "vim-visual-mode"
  else "vim-normal-mode"

/-- Observable outcome of one vim-mode-change event. -/
structure ModeChangeResult where
  currentMode : String
  justEnteredInsertMode : Bool
  classes : List String
deriving Repr, DecidableEq

/-- The vim-mode-change callback registered in setupVimModeHandlers (build.js
lines 1803-1829): track the reported mode, flag normal-to-insert transitions,
and swap the mode CSS class on the editor container.  classes is the class list
of the container (classList.remove drops every mode class, classList.add
appends the selected one). -/
def onVimModeChange (currentMode : String) (justEntered : Bool)
    (reported : String) (classes : List String)
    (editorDivPresent : Bool) : ModeChangeResult :=
  let previousMode := currentMode
  let justEntered1 :=
    if previousMode = "normal" ∧ reported = "insert" then true else justEntered
  let classes1 :=
    if editorDivPresent then
      let removed := classes.filter (fun cl => !(modeClasses.contains cl))
      if reported = "insert" then removed ++ ["vim-insert-mode"]
      else if reported = "visual" then removed ++ ["vim-visual-mode"]
      else removed ++ ["vim-normal-mode"]
    else classes
  { currentMode := reported, justEnteredInsertMode := justEntered1, classes := classes1 }

/-- Environment for loadAceEditor: whether window.ace is already present,
whether each CDN script load succeeds, and whether the first script actually
defines window.ace. -/
structure AceEnv where
  windowAce : Bool
  script1Ok : Bool
  aceAfterScript1 : Bool
  script2Ok : Bool
deriving Repr, DecidableEq

/-- loadAceEditor (build.js lines 270-298): returns aceLoaded and the number of
script elements appended to document.head by loadScript (appended even when the
load then fails). -/
def loadAceEditor (env : AceEnv) : Bool × Nat :=
  if env.windowAce then (true, 0)
  else if env.script1Ok = false then (false, 1)
  else if env.aceAfterScript1 then
    if env.script2Ok then (true, 2) else (false, 2)
  else (false, 1)

/-- Observable outcome of start(). -/
structure StartResult where
  config : Config
  customMappings : List Mapping
  aceLoaded : Bool
  scriptsAppended : Nat
  errorToasts : Nat
  channelListenerSetup : Bool
  draftListenerSetup : Bool
  stylesAdded : Bool
  observerStarted : Bool
  st : DraftState
deriving Repr, DecidableEq

/-- start (build.js lines 173-190): loadConfig, loadAceEditor, then either the
single failure toast and early return, or the listener / style / observer
setup.  Debug-mode log toasts are not modelled; errorToasts counts the explicit
BdApi.UI.showToast call. -/
def start (env : AceEnv) (store : Option SavedData) (st : DraftState) : StartResult :=
  let p := loadConfig store
  let l := loadAceEditor env
  if l.1 = false then
    { config := p.1, customMappings := p.2, aceLoaded := false
      scriptsAppended := l.2, errorToasts := 1
      channelListenerSetup := false, draftListenerSetup := false
      stylesAdded := false, observerStarted := false, st := st }
  else
    { config := p.1, customMappings := p.2, aceLoaded := true
      scriptsAppended := l.2, errorToasts := 0
      channelListenerSetup := true, draftListenerSetup := true
      stylesAdded := true, observerStarted := true, st := st }

/-! Helper lemmas on the association-map model. -/

theorem mapGet_set_self {α : Type} (m : List (String × α)) (k : String) (v : α) :
    mapGet (mapSet m k v) k = some v := by
  induction m with
  | nil => simp [mapSet, mapGet]
  | cons p rest ih =>
    obtain ⟨k1, w⟩ := p
    by_cases h : k1 = k
    · simp [mapSet, mapGet, h]
    · simp [mapSet, mapGet, h, ih]

theorem mapGet_set_ne {α : Type} (m : List (String × α)) (k k2 : String) (v : α)
    (h : k ≠ k2) : mapGet (mapSet m k v) k2 = mapGet m k2 := by
  induction m with
  | nil => simp [mapSet, mapGet, h]
  | cons p rest ih =>
    obtain ⟨k1, w⟩ := p
    by_cases h1 : k1 = k
    · subst h1
      simp [mapSet, mapGet, h]
    · simp only [mapSet, if_neg h1, mapGet]
      by_cases h2 : k1 = k2
      · simp [h2]
      · simp [h2, ih]

theorem mapGet_delete_self {α : Type} (m : List (String × α)) (k : String) :
    mapGet (mapDelete m k) k = none := by
  induction m with
  | nil => simp [mapDelete, mapGet]
  | cons p rest ih =>
    obtain ⟨k1, w⟩ := p
    by_cases h : k1 = k
    · simp [mapDelete, h, ih]
    · simp [mapDelete, mapGet, h, ih]

theorem mapGet_delete_ne {α : Type} (m : List (String × α)) (k k2 : String)
    (h : k ≠ k2) : mapGet (mapDelete m k) k2 = mapGet m k2 := by
  induction m with
  | nil => simp [mapDelete]
  | cons p rest ih =>
    obtain ⟨k1, w⟩ := p
    by_cases h1 : k1 = k
    · subst h1
      simp [mapDelete, mapGet, h, Ne.symm h, ih]
    · simp only [mapDelete, if_neg h1, mapGet]
      by_cases h2 : k1 = k2
      · simp [h2]
      · simp [h2, ih]

theorem filter_mode_classes_of_removed (cs : List String) (m : String) :
    ((cs.filter (fun cl => !(modeClasses.contains cl))) ++ [m]).filter
      (fun cl => modeClasses.contains cl) =
      if modeClasses.contains m then [m] else [] := by
  rw [List.filter_append, List.filter_filter]
  have h1 : ∀ cl, (modeClasses.contains cl && !(modeClasses.contains cl)) = false := by
    intro cl
    cases modeClasses.contains cl <;> rfl
  simp only [h1, List.filter_false, List.nil_append]
  by_cases h : m ∈ modeClasses
  · simp [List.filter, h]
  · simp [List.filter, h]

theorem dropWhile_rdropWhile_dropWhile {α : Type} (p : α → Bool) (l : List α) :
    List.dropWhile p (List.rdropWhile p (List.dropWhile p l)) =
      List.rdropWhile p (List.dropWhile p l) := by
  rcases h : List.rdropWhile p (List.dropWhile p l) with _ | ⟨a, t⟩
  · simp
  · have hpre := List.rdropWhile_prefix p (List.dropWhile p l)
    rw [h] at hpre
    obtain ⟨r, hr⟩ := hpre
    have hw : List.dropWhile p l ≠ [] := by
      rw [← hr]
      simp
    have hnp := List.head_dropWhile_not p l hw
    have hhead : (List.dropWhile p l).head hw = a := by
      have h2 : (List.dropWhile p l).head? = some a := by
        rw [← hr]
        rfl
      rw [List.head?_eq_head hw, Option.some_inj] at h2
      exact h2
    rw [hhead] at hnp
    rw [List.dropWhile_cons_of_neg (by simp [hnp])]

theorem jsTrim_idem (s : String) : jsTrim (jsTrim s) = jsTrim s := by
  show String.mk (List.rdropWhile _ (List.dropWhile _
    (List.rdropWhile _ (List.dropWhile _ s.data)))) = _
  rw [dropWhile_rdropWhile_dropWhile, List.rdropWhile_idempotent]
  rfl

/-! Claim theorems. -/

/-- Claim C8: loadConfig is a normalizing round-trip with the settings store:
with no saved data the result is defaultConfig with empty customMappings; with
saved data each field is nested-settings value, else flat value, else default
(the pick chain); loadConfig ends by saving, and load-then-save is idempotent:
a second loadConfig run on the store the first one wrote returns the same
config, mappings, and store. -/
theorem C8_loadConfig_roundtrip :
    (loadConfig none = (defaultConfig, [])) ∧
    (∀ (α : Type) (a : α) (f : Option α) (d : α), pick (some a) f d = a) ∧
    (∀ (α : Type) (b d : α), pick none (some b) d = b) ∧
    (∀ (α : Type) (d : α), pick none none d = d) ∧
    (∀ s : SavedData,
      (loadConfig (some s)).1.debugMode =
        pick (s.settings.bind PartialSettings.debugMode) s.flat.debugMode
          defaultConfig.debugMode ∧
      (loadConfig (some s)).1.fontSize =
        pick (s.settings.bind PartialSettings.fontSize) s.flat.fontSize
          defaultConfig.fontSize ∧
      (loadConfig (some s)).1.fontFamily =
        pick (s.settings.bind PartialSettings.fontFamily) s.flat.fontFamily
          defaultConfig.fontFamily ∧
      (loadConfig (some s)).1.fontColor =
        pick (s.settings.bind PartialSettings.fontColor) s.flat.fontColor
          defaultConfig.fontColor ∧
      (loadConfig (some s)).1.backgroundColor =
        pick (s.settings.bind PartialSettings.backgroundColor) s.flat.backgroundColor
          defaultConfig.backgroundColor ∧
      (loadConfig (some s)).1.cursorColor =
        pick (s.settings.bind PartialSettings.cursorColor) s.flat.cursorColor
          defaultConfig.cursorColor ∧
      (loadConfig (some s)).1.highlightActiveLine =
        pick (s.settings.bind PartialSettings.highlightActiveLine) s.flat.highlightActiveLine
          defaultConfig.highlightActiveLine ∧
      (loadConfig (some s)).1.sendInInsertMode =
        pick (s.settings.bind PartialSettings.sendInInsertMode) s.flat.sendInInsertMode
          defaultConfig.sendInInsertMode ∧
      (loadConfig (some s)).1.sendInNormalMode =
        pick (s.settings.bind PartialSettings.sendInNormalMode) s.flat.sendInNormalMode
          defaultConfig.sendInNormalMode ∧
      (loadConfig (some s)).2 =
        pick s.flat.customMappings (s.settings.bind PartialSettings.customMappings) []) ∧
    (∀ store : Option SavedData,
      loadConfigRun ((loadConfigRun store).2.2) = loadConfigRun store) := by
  refine ⟨rfl, ?_, ?_, ?_, ?_, ?_⟩
  · intro α a f d
    rfl
  · intro α b d
    rfl
  · intro α d
    rfl
  · intro s
    exact ⟨rfl, rfl, rfl, rfl, rfl, rfl, rfl, rfl, rfl, rfl⟩
  · intro store
    cases store <;> rfl

/-- Claim C5: on Enter without Shift, a message is sent or edited exactly when
(sendInInsertMode and mode insert) or (sendInNormalMode and mode not insert);
edit mode calls editMessage with the trimmed content, otherwise the host
sendMessage receives the trimmed content and the editor is emptied; with
whitespace-only content nothing is sent and the editor is unchanged; when
neither send condition holds the event is not consumed and nothing is sent. -/
theorem C5_enter_send_decision (config : Config) (currentMode : String)
    (isEditMode : Bool) (editorValue : String) (st : DraftState)
    (channelId : Option String) (draftActionsPresent vimModePresent : Bool) :
    (((config.sendInInsertMode = true ∧ currentMode = "insert") ∨
        (config.sendInNormalMode = true ∧ currentMode ≠ "insert")) →
      jsTrim editorValue ≠ "" → isEditMode = false →
      (handleEnterKey config currentMode isEditMode editorValue st channelId
          draftActionsPresent vimModePresent).prevented = true ∧
      (handleEnterKey config currentMode isEditMode editorValue st channelId
          draftActionsPresent vimModePresent).sent =
        some (channelId, jsTrim editorValue) ∧
      (handleEnterKey config currentMode isEditMode editorValue st channelId
          draftActionsPresent vimModePresent).edited = none ∧
      (handleEnterKey config currentMode isEditMode editorValue st channelId
          draftActionsPresent vimModePresent).editorValue = "") ∧
    (((config.sendInInsertMode = true ∧ currentMode = "insert") ∨
        (config.sendInNormalMode = true ∧ currentMode ≠ "insert")) →
      jsTrim editorValue ≠ "" → isEditMode = true →
      (handleEnterKey config currentMode isEditMode editorValue st channelId
          draftActionsPresent vimModePresent).prevented = true ∧
      (handleEnterKey config currentMode isEditMode editorValue st channelId
          draftActionsPresent vimModePresent).edited = some (jsTrim editorValue) ∧
      (handleEnterKey config currentMode isEditMode editorValue st channelId
          draftActionsPresent vimModePresent).sent = none ∧
      (handleEnterKey config currentMode isEditMode editorValue st channelId
          draftActionsPresent vimModePresent).editorValue = editorValue) ∧
    (((config.sendInInsertMode = true ∧ currentMode = "insert") ∨
        (config.sendInNormalMode = true ∧ currentMode ≠ "insert")) →
      jsTrim editorValue = "" →
      (handleEnterKey config currentMode isEditMode editorValue st channelId
          draftActionsPresent vimModePresent).sent = none ∧
      (handleEnterKey config currentMode isEditMode editorValue st channelId
          draftActionsPresent vimModePresent).edited = none ∧
      (handleEnterKey config currentMode isEditMode editorValue st channelId
          draftActionsPresent vimModePresent).editorValue = editorValue ∧
      (handleEnterKey config currentMode isEditMode editorValue st channelId
          draftActionsPresent vimModePresent).st = st) ∧
    (¬ ((config.sendInInsertMode = true ∧ currentMode = "insert") ∨
        (config.sendInNormalMode = true ∧ currentMode ≠ "insert")) →
      (handleEnterKey config currentMode isEditMode editorValue st channelId
          draftActionsPresent vimModePresent).prevented = false ∧
      (handleEnterKey config currentMode isEditMode editorValue st channelId
          draftActionsPresent vimModePresent).sent = none ∧
      (handleEnterKey config currentMode isEditMode editorValue st channelId
          draftActionsPresent vimModePresent).edited = none ∧
      (handleEnterKey config currentMode isEditMode editorValue st channelId
          draftActionsPresent vimModePresent).editorValue = editorValue ∧
      (handleEnterKey config currentMode isEditMode editorValue st channelId
          draftActionsPresent vimModePresent).st = st) := by
  refine ⟨?_, ?_, ?_, ?_⟩
  · intro hs hne hedit
    subst hedit
    unfold handleEnterKey
    rw [if_pos hs, if_neg hne, if_neg (show ¬ (false = true) by decide)]
    refine ⟨rfl, ?_, rfl, rfl⟩
    show (sendMessage st channelId draftActionsPresent (jsTrim editorValue)).sent = _
    unfold sendMessage
    rw [jsTrim_idem, if_neg hne]
    cases channelId <;> cases draftActionsPresent <;> simp [jsTrim_idem]
  · intro hs hne hedit
    subst hedit
    unfold handleEnterKey
    rw [if_pos hs, if_neg hne, if_pos rfl]
    exact ⟨rfl, rfl, rfl, rfl⟩
  · intro hs he
    unfold handleEnterKey
    rw [if_pos hs, if_pos he]
    exact ⟨rfl, rfl, rfl, rfl⟩
  · intro hs
    unfold handleEnterKey
    rw [if_neg hs]
    exact ⟨rfl, rfl, rfl, rfl, rfl⟩

/-- Witness for C5 at a concrete input: default config (sendInNormalMode on),
normal mode, main chat box, content " hi ". -/
theorem C5_enter_send_decision_witness :
    (handleEnterKey defaultConfig "normal" false " hi "
        ⟨[("a", "x")], [], []⟩ (some "a") true true).prevented = true ∧
    (handleEnterKey defaultConfig "normal" false " hi "
        ⟨[("a", "x")], [], []⟩ (some "a") true true).sent =
      some (some "a", jsTrim " hi ") ∧
    (handleEnterKey defaultConfig "normal" false " hi "
        ⟨[("a", "x")], [], []⟩ (some "a") true true).edited = none ∧
    (handleEnterKey defaultConfig "normal" false " hi "
        ⟨[("a", "x")], [], []⟩ (some "a") true true).editorValue = "" :=
  (C5_enter_send_decision defaultConfig "normal" false " hi "
      ⟨[("a", "x")], [], []⟩ (some "a") true true).1
    (Or.inr ⟨rfl, by decide⟩) (by decide) rfl

/-- Claim C3: on a channel-select event where the previous channel id exists and
differs from the new one, the old channel editor content (cache, else active
main-chat editor) is reconciled into the host store: whitespace-only content
clears the stored draft and deletes the cache entry, otherwise the content is
saved as the old channel draft; an unchanged channel id changes nothing. -/
theorem C3_channel_switch_saves_draft (st : DraftState)
    (prev new ed : Option String) :
    (∀ p : String, prev = some p → some p ≠ new →
      (jsTrim (resolvedDraftContent st p ed) = "" →
        mapGet (handleChannelChange st prev new ed).1.drafts p = none ∧
        mapGet (handleChannelChange st prev new ed).1.draftCache p = none) ∧
      (jsTrim (resolvedDraftContent st p ed) ≠ "" →
        mapGet (handleChannelChange st prev new ed).1.drafts p =
          some (resolvedDraftContent st p ed))) ∧
    (prev = new → (handleChannelChange st prev new ed).1 = st) := by
  constructor
  · intro p hp hne
    subst hp
    have hred : (handleChannelChange st (some p) new ed).1 =
        if some p ≠ new then saveCurrentChannelDraft st p ed else st := rfl
    rw [hred, if_pos hne]
    constructor
    · intro h
      unfold saveCurrentChannelDraft
      rw [if_pos h]
      exact ⟨mapGet_delete_self _ _, mapGet_delete_self _ _⟩
    · intro h
      unfold saveCurrentChannelDraft
      rw [if_neg h]
      exact mapGet_set_self _ _ _
  · intro h
    subst h
    cases prev with
    | none => rfl
    | some p =>
      have hred : (handleChannelChange st (some p) (some p) ed).1 =
          if some p ≠ some p then saveCurrentChannelDraft st p ed else st := rfl
      rw [hred, if_neg (by simp)]

/-- Witness for C3 at a concrete input: switching away from channel a whose
cached content is hi saves hi as the stored draft of a. -/
theorem C3_channel_switch_saves_draft_witness :
    mapGet (handleChannelChange ⟨[], [("a", "hi")], []⟩
        (some "a") (some "b") none).1.drafts "a" = some "hi" :=
  (((C3_channel_switch_saves_draft ⟨[], [("a", "hi")], []⟩
      (some "a") (some "b") none).1 "a" rfl (by decide)).2 (by decide)).trans
    (by decide)

/-- Claim C7: all draft state is keyed per channel: saving a draft for one
channel, the post-send cleanup of sendMessage for one channel, and
loadInitialContent for one channel leave the stored draft, the cache, and the
last-processed entry of every other channel unchanged. -/
theorem C7_per_channel_isolation (st : DraftState) (c1 c2 : String)
    (ed : Option String) (content : String) (dap : Bool)
    (cache drafts : List (String × String)) (isEdit : Bool)
    (emt fbt : String) (dsp : Bool) (h : c1 ≠ c2) :
    (mapGet (saveCurrentChannelDraft st c1 ed).drafts c2 = mapGet st.drafts c2 ∧
     mapGet (saveCurrentChannelDraft st c1 ed).draftCache c2 = mapGet st.draftCache c2 ∧
     mapGet (saveCurrentChannelDraft st c1 ed).lastProcessedDraft c2 =
       mapGet st.lastProcessedDraft c2) ∧
    (mapGet (sendMessage st (some c1) dap content).st.drafts c2 = mapGet st.drafts c2 ∧
     mapGet (sendMessage st (some c1) dap content).st.draftCache c2 = mapGet st.draftCache c2 ∧
     mapGet (sendMessage st (some c1) dap content).st.lastProcessedDraft c2 =
       mapGet st.lastProcessedDraft c2) ∧
    (mapGet (loadInitialContent cache drafts (some c1) isEdit emt fbt dsp).draftCache c2 =
      mapGet cache c2) := by
  refine ⟨?_, ?_, ?_⟩
  · simp only [saveCurrentChannelDraft]
    split
    · exact ⟨mapGet_delete_ne _ _ _ h, mapGet_delete_ne _ _ _ h, rfl⟩
    · exact ⟨mapGet_set_ne _ _ _ _ h, rfl, rfl⟩
  · unfold sendMessage
    split
    · exact ⟨rfl, rfl, rfl⟩
    · cases dap
      · exact ⟨rfl, rfl, rfl⟩
      · exact ⟨mapGet_delete_ne _ _ _ h, mapGet_delete_ne _ _ _ h,
          mapGet_delete_ne _ _ _ h⟩
  · simp only [loadInitialContent]
    repeat' split
    all_goals first
      | rfl
      | exact mapGet_set_ne _ _ _ _ h

/-- Witness for C7 at concrete distinct channels a and b. -/
theorem C7_per_channel_isolation_witness :
    mapGet (saveCurrentChannelDraft ⟨[("b", "y")], [("b", "z")], []⟩
        "a" none).drafts "b" = some "y" ∧
    mapGet (sendMessage ⟨[("b", "y")], [("b", "z")], []⟩
        (some "a") true "m").st.draftCache "b" = some "z" ∧
    mapGet (loadInitialContent [("b", "z")] [("a", "d")] (some "a")
        false "" "" true).draftCache "b" = some "z" := by
  have hmain := C7_per_channel_isolation ⟨[("b", "y")], [("b", "z")], []⟩
    "a" "b" none "m" true [("b", "z")] [("a", "d")] false "" "" true (by decide)
  exact ⟨hmain.1.1.trans (by decide), hmain.2.1.2.1.trans (by decide),
    hmain.2.2.trans (by decide)⟩

/-! Key-sequence machinery lemmas. -/

theorem seqStep_matched_join (key : String) (now : Nat) (keys : String)
    (s : SeqState) (h : (seqStep key now keys s).matched = true) :
    String.join (seqStep key now keys s).state.buffer = keys := by
  simp only [seqStep] at h ⊢
  split_ifs at h ⊢ <;> simp_all

theorem seqStep_fields (key : String) (now : Nat) (keys : String) (s : SeqState) :
    (seqStep key now keys s).state.action = s.action ∧
    (seqStep key now keys s).state.mode = s.mode ∧
    (seqStep key now keys s).state.timeout = s.timeout := by
  simp only [seqStep]
  split_ifs <;> exact ⟨rfl, rfl, rfl⟩

theorem seqLoop_matched (mode key : String) (now : Nat) (ks : KeySequences)
    (keys : String) (s : SeqState)
    (h : (seqLoop mode key now ks).2 = some (keys, s)) :
    String.join s.buffer = keys ∧ s.mode = mode ∧
    ∃ s0, (keys, s0) ∈ ks ∧ s0.action = s.action ∧ s0.mode = s.mode := by
  induction ks with
  | nil => simp [seqLoop] at h
  | cons p rest ih =>
    obtain ⟨k0, s0⟩ := p
    simp only [seqLoop] at h
    by_cases hm : s0.mode ≠ mode
    · rw [if_pos hm] at h
      obtain ⟨h1, h2, s1, hmem, ha, hb⟩ := ih h
      exact ⟨h1, h2, s1, List.mem_cons_of_mem _ hmem, ha, hb⟩
    · rw [if_neg hm] at h
      push_neg at hm
      by_cases hmt : (seqStep key now k0 s0).matched = true
      · rw [if_pos hmt] at h
        have hpair : (k0, (seqStep key now k0 s0).state) = (keys, s) := by
          simpa using h
        have hk : k0 = keys := congrArg Prod.fst hpair
        have hs : (seqStep key now k0 s0).state = s := congrArg Prod.snd hpair
        obtain ⟨ha, hmo, hti⟩ := seqStep_fields key now k0 s0
        refine ⟨?_, ?_, s0, ?_, ?_, ?_⟩
        · rw [← hs, ← hk]
          exact seqStep_matched_join key now k0 s0 hmt
        · rw [← hs, hmo, hm]
        · rw [← hk]
          exact List.mem_cons_self _ _
        · rw [← hs, ha]
        · rw [← hs, hmo]
      · rw [if_neg hmt] at h
        obtain ⟨h1, h2, s1, hmem, ha, hb⟩ := ih h
        exact ⟨h1, h2, s1, List.mem_cons_of_mem _ hmem, ha, hb⟩

theorem seqLoop_none_preserves (mode key : String) (now : Nat)
    (ks : KeySequences) (k : String) (s : SeqState)
    (hnone : (seqLoop mode key now ks).2 = none)
    (hget : mapGet ks k = some s) (hmode : s.mode ≠ mode) :
    mapGet (seqLoop mode key now ks).1 k = some s := by
  induction ks with
  | nil => simp [mapGet] at hget
  | cons p rest ih =>
    obtain ⟨k0, s0⟩ := p
    simp only [seqLoop] at hnone ⊢
    by_cases hm : s0.mode ≠ mode
    · rw [if_pos hm] at hnone ⊢
      by_cases hk : k0 = k
      · simp only [mapGet, if_pos hk] at hget ⊢
        exact hget
      · simp only [mapGet, if_neg hk] at hget ⊢
        exact ih hnone hget
    · rw [if_neg hm] at hnone ⊢
      push_neg at hm
      by_cases hmt : (seqStep key now k0 s0).matched = true
      · rw [if_pos hmt] at hnone
        simp at hnone
      · rw [if_neg hmt] at hnone ⊢
        by_cases hk : k0 = k
        · simp only [mapGet, if_pos hk] at hget
          have hss : s0 = s := by simpa using hget
          exact absurd (hss ▸ hm) hmode
        · simp only [mapGet, if_neg hk] at hget ⊢
          exact ih hnone hget

theorem clearAllSequences_mem (ks : KeySequences) :
    ∀ p ∈ clearAllSequences ks, p.2.buffer = [] ∧ p.2.lastTime = 0 := by
  intro p hp
  unfold clearAllSequences at hp
  obtain ⟨q, hq, rfl⟩ := List.mem_map.mp hp
  exact ⟨rfl, rfl⟩

theorem addSequence_preserves_isSome (acc : KeySequences) (m : Mapping)
    (k : String) (h : (mapGet acc k).isSome = true) :
    (mapGet (addSequence acc m) k).isSome = true := by
  unfold addSequence
  split
  · by_cases hk : m.fromKey = k
    · rw [hk, mapGet_set_self]
      rfl
    · rw [mapGet_set_ne _ _ _ _ hk]
      exact h
  · exact h

theorem foldl_addSequence_preserves_isSome (ms : List Mapping)
    (acc : KeySequences) (k : String) (h : (mapGet acc k).isSome = true) :
    (mapGet (ms.foldl addSequence acc) k).isSome = true := by
  induction ms generalizing acc with
  | nil => exact h
  | cons m ms ih => exact ih _ (addSequence_preserves_isSome acc m k h)

theorem foldl_addSequence_get (ms : List Mapping) (acc : KeySequences)
    (k : String) (s : SeqState)
    (h : mapGet (ms.foldl addSequence acc) k = some s) :
    mapGet acc k = some s ∨
      (s.buffer = [] ∧ s.lastTime = 0 ∧ s.timeout = 1000 ∧
        k.length > 1 ∧ strStartsWith k "<" = false ∧
        ∃ m ∈ ms, m.fromKey = k ∧ m.toKey = s.action ∧ m.mode = s.mode) := by
  induction ms generalizing acc with
  | nil => exact Or.inl h
  | cons m ms ih =>
    rcases ih (addSequence acc m) h with h1 | h1
    · unfold addSequence at h1
      split at h1
      · next hcond =>
        by_cases hk : m.fromKey = k
        · rw [hk, mapGet_set_self] at h1
          have hs : mkSeqState m = s := by simpa using h1
          refine Or.inr ⟨?_, ?_, ?_, ?_, ?_, m, List.mem_cons_self _ _, hk, ?_, ?_⟩
          · rw [← hs]
            rfl
          · rw [← hs]
            rfl
          · rw [← hs]
            rfl
          · rw [← hk]
            exact hcond.1
          · rw [← hk]
            exact hcond.2
          · rw [← hs]
            rfl
          · rw [← hs]
            rfl
        · rw [mapGet_set_ne _ _ _ _ hk] at h1
          exact Or.inl h1
      · exact Or.inl h1
    · obtain ⟨h2, h3, h4, h5, h6, m1, hmem, hrest⟩ := h1
      exact Or.inr ⟨h2, h3, h4, h5, h6, m1, List.mem_cons_of_mem _ hmem, hrest⟩

/-- Auxiliary: membership version of the initializeKeySequences fold. -/
theorem foldl_addSequence_mem_isSome (ms : List Mapping) :
    ∀ (acc : KeySequences) (m : Mapping), m ∈ ms → m.fromKey.length > 1 →
      strStartsWith m.fromKey "<" = false →
      (mapGet (ms.foldl addSequence acc) m.fromKey).isSome = true := by
  induction ms with
  | nil =>
    intro acc m hm
    cases hm
  | cons m0 ms ih =>
    intro acc m hm h1 h2
    rcases List.mem_cons.mp hm with hm | hm
    · rw [List.foldl_cons, ← hm]
      apply foldl_addSequence_preserves_isSome
      unfold addSequence
      rw [if_pos ⟨h1, h2⟩, mapGet_set_self]
      rfl
    · exact ih (addSequence acc m0) m hm h1 h2

/-- Claim C9: when handleKeySequence matches a sequence of length n, the range
handed to session.remove stays on the cursor row, its start column is the
clamped Math.max(0, column - (n - 1)) and hence never negative, exactly
min(n - 1, column) columns are covered, and a length-1 match removes nothing. -/
theorem C9_sequence_removal_range (mode : String) (e : KeyEvent) (now : Nat)
    (pos : Pos) (vmp : Bool) (ks : KeySequences) (keys : String) (s : SeqState)
    (h : (handleKeySequence mode e now pos vmp ks).matchedSeq = some (keys, s)) :
    (keys.length ≤ 1 → (handleKeySequence mode e now pos vmp ks).removeRange = none) ∧
    (2 ≤ keys.length →
      ∃ r, (handleKeySequence mode e now pos vmp ks).removeRange = some r ∧
        r.startRow = pos.row ∧ r.endRow = pos.row ∧
        r.startCol = max 0 ((pos.column : Int) - ((keys.length : Int) - 1)) ∧
        0 ≤ r.startCol ∧
        r.endCol - r.startCol = min ((keys.length : Int) - 1) (pos.column : Int)) := by
  rcases hL : (seqLoop mode e.key now ks).2 with _ | ⟨k0, s1⟩
  · simp [handleKeySequence, hL] at h
  · simp only [handleKeySequence, hL] at h ⊢
    have hk : k0 = keys := by
      have h2 : (k0, s1) = (keys, s) := by
        injection h
      injection h2 with h3 h4
    subst hk
    constructor
    · intro hle
      have hzero : ¬ (k0.length - 1 > 0) := by omega
      rw [if_neg hzero]
    · intro hge
      have hpos : k0.length - 1 > 0 := by omega
      have hcast : ((k0.length - 1 : Nat) : Int) = (k0.length : Int) - 1 := by
        omega
      rw [if_pos hpos]
      refine ⟨_, rfl, rfl, rfl, ?_, ?_, ?_⟩
      · rw [hcast]
      · exact le_max_left 0 _
      · show (pos.column : Int) -
            max 0 ((pos.column : Int) - ((k0.length - 1 : Nat) : Int)) =
            min ((k0.length : Int) - 1) (pos.column : Int)
        rw [hcast]
        omega

/-- Witness for C9: the jk mapping matched at column 5 removes one column on
row 0. -/
theorem C9_sequence_removal_range_witness :
    ∃ r, (handleKeySequence "insert" { key := "k" } 500 ⟨0, 5⟩ true
        [("jk", ⟨["j"], 400, 1000, "<Esc>", "insert"⟩)]).removeRange = some r ∧
      r.startRow = 0 ∧ r.endRow = 0 ∧
      r.startCol = max 0 ((5 : Int) - ((2 : Int) - 1)) ∧
      0 ≤ r.startCol ∧
      r.endCol - r.startCol = min ((2 : Int) - 1) (5 : Int) :=
  (C9_sequence_removal_range "insert" { key := "k" } 500 ⟨0, 5⟩ true
      [("jk", ⟨["j"], 400, 1000, "<Esc>", "insert"⟩)] "jk"
      ⟨["j", "k"], 500, 1000, "<Esc>", "insert"⟩ (by decide)).2 (by decide)

/-- Claim C2: multi-key mappings (from longer than one character, not starting
with an angle bracket) and only those enter the sequence Map, each starting
with an empty buffer, zero timestamp and the 1000 ms timeout; a key arriving
at or after the timeout sees the buffer reset first; within the timeout a key
that keeps the buffer a prefix of the target is appended and timestamped; an
exact match consumes the keystroke (preventDefault), sends Escape to the engine
for the action Esc, and clears every buffer and timestamp; without a match
nothing is consumed and entries of other modes are untouched. -/
theorem C2_multikey_sequences :
    (∀ (ms : List Mapping) (k : String) (s : SeqState),
        mapGet (initializeKeySequences ms) k = some s →
        s.buffer = [] ∧ s.lastTime = 0 ∧ s.timeout = 1000 ∧
        k.length > 1 ∧ strStartsWith k "<" = false ∧
        ∃ m ∈ ms, m.fromKey = k ∧ m.toKey = s.action ∧ m.mode = s.mode) ∧
    (∀ (ms : List Mapping) (m : Mapping), m ∈ ms → m.fromKey.length > 1 →
        strStartsWith m.fromKey "<" = false →
        (mapGet (initializeKeySequences ms) m.fromKey).isSome = true) ∧
    (∀ (key : String) (now : Nat) (keys : String) (s : SeqState),
        s.timeout ≤ now - s.lastTime →
        seqStep key now keys s = seqStep key now keys { s with buffer := [] }) ∧
    (∀ (key : String) (now : Nat) (keys : String) (s : SeqState),
        now - s.lastTime < s.timeout →
        strStartsWith keys (String.join (s.buffer ++ [key])) = true →
        (seqStep key now keys s).state.buffer = s.buffer ++ [key] ∧
        (seqStep key now keys s).state.lastTime = now) ∧
    (∀ (mode : String) (e : KeyEvent) (now : Nat) (pos : Pos) (vmp : Bool)
        (ks : KeySequences) (keys : String) (s : SeqState),
        (handleKeySequence mode e now pos vmp ks).matchedSeq = some (keys, s) →
        String.join s.buffer = keys ∧
        (handleKeySequence mode e now pos vmp ks).consumed = true ∧
        (handleKeySequence mode e now pos vmp ks).prevented = true ∧
        (∀ p ∈ (handleKeySequence mode e now pos vmp ks).seqs,
          p.2.buffer = [] ∧ p.2.lastTime = 0) ∧
        (s.action = "<Esc>" → vmp = true →
          (handleKeySequence mode e now pos vmp ks).escSent = true) ∧
        ∃ s0, (keys, s0) ∈ ks ∧ s0.action = s.action ∧ s0.mode = mode) ∧
    (∀ (mode : String) (e : KeyEvent) (now : Nat) (pos : Pos) (vmp : Bool)
        (ks : KeySequences) (k : String) (s : SeqState),
        (handleKeySequence mode e now pos vmp ks).matchedSeq = none →
        (handleKeySequence mode e now pos vmp ks).consumed = false ∧
        (handleKeySequence mode e now pos vmp ks).prevented = false ∧
        (mapGet ks k = some s → s.mode ≠ mode →
          mapGet (handleKeySequence mode e now pos vmp ks).seqs k = some s)) := by
  refine ⟨?_, ?_, ?_, ?_, ?_, ?_⟩
  · intro ms k s h
    rcases foldl_addSequence_get ms [] k s h with h1 | h1
    · simp [mapGet] at h1
    · exact h1
  · intro ms m hm h1 h2
    exact foldl_addSequence_mem_isSome ms [] m hm h1 h2
  · intro key now keys s h
    simp [seqStep, h]
  · intro key now keys s h1 h2
    have hnr : ¬ (s.timeout ≤ now - s.lastTime) := by omega
    simp only [seqStep, if_neg hnr]
    split_ifs with hc1 hc2 hc3
    · exact ⟨rfl, rfl⟩
    · exact absurd h2 (by simpa using hc2)
    · exact absurd h2 (by simpa using hc2)
    · exact ⟨rfl, rfl⟩
  · intro mode e now pos vmp ks keys s h
    rcases hL : (seqLoop mode e.key now ks).2 with _ | ⟨k0, s1⟩
    · simp [handleKeySequence, hL] at h
    · simp only [handleKeySequence, hL] at h ⊢
      have hpair : (k0, s1) = (keys, s) := by
        injection h
      have hk : k0 = keys := congrArg Prod.fst hpair
      have hs : s1 = s := congrArg Prod.snd hpair
      subst hk
      subst hs
      obtain ⟨hjoin, hmode, s0, hmem, ha, hb⟩ :=
        seqLoop_matched mode e.key now ks k0 s1 hL
      refine ⟨hjoin, trivial, trivial, ?_, ?_, s0, hmem, ha, hb.trans hmode⟩
      · exact clearAllSequences_mem _
      · intro hesc hv
        rw [hesc, hv]
        rfl
  · intro mode e now pos vmp ks k s h
    rcases hL : (seqLoop mode e.key now ks).2 with _ | ⟨k0, s1⟩
    · simp only [handleKeySequence, hL]
      exact ⟨trivial, trivial, fun hget hmode =>
        seqLoop_none_preserves mode e.key now ks k s hL hget hmode⟩
    · simp [handleKeySequence, hL] at h

/-- Witness for C2: a jk mapping in insert mode; the matched call at the
concrete input is consumed and the buffers are cleared. -/
theorem C2_multikey_sequences_witness :
    ((handleKeySequence "insert" { key := "k" } 500 ⟨0, 5⟩ true
        [("jk", ⟨["j"], 400, 1000, "<Esc>", "insert"⟩)]).consumed = true) ∧
    ((seqStep "j" 1500 "jk" ⟨["j"], 400, 1000, "<Esc>", "insert"⟩) =
      (seqStep "j" 1500 "jk" ⟨[], 400, 1000, "<Esc>", "insert"⟩)) ∧
    ((seqStep "k" 500 "jk" ⟨["j"], 400, 1000, "<Esc>", "insert"⟩).state.buffer =
      ["j", "k"]) := by
  have hmain := C2_multikey_sequences
  refine ⟨(hmain.2.2.2.2.1 "insert" { key := "k" } 500 ⟨0, 5⟩ true
      [("jk", ⟨["j"], 400, 1000, "<Esc>", "insert"⟩)] "jk"
      ⟨["j", "k"], 500, 1000, "<Esc>", "insert"⟩ (by decide)).2.1, ?_, ?_⟩
  · exact hmain.2.2.1 "j" 1500 "jk" ⟨["j"], 400, 1000, "<Esc>", "insert"⟩ (by decide)
  · exact (hmain.2.2.2.1 "k" 500 "jk" ⟨["j"], 400, 1000, "<Esc>", "insert"⟩
      (by decide) (by decide)).1

/-- Auxiliary: the class picked for a reported mode is one of the three mode
classes. -/
theorem modeClassFor_contains (reported : String) :
    modeClasses.contains (modeClassFor reported) = true := by
  unfold modeClassFor
  split_ifs <;> decide

/-- Claim C6 counterexample: when the engine reports the mode replace, the
tracked currentMode is replace, which is not one of insert, normal, visual,
while the container is styled vim-normal-mode; the claim that currentMode is
always one of the three fails. -/
theorem C6_mode_change_counterexample :
    (onVimModeChange "normal" false "replace" ["vim-normal-mode"] true).currentMode =
      "replace" ∧
    ¬ ((onVimModeChange "normal" false "replace" ["vim-normal-mode"] true).currentMode =
        "insert" ∨
      (onVimModeChange "normal" false "replace" ["vim-normal-mode"] true).currentMode =
        "normal" ∨
      (onVimModeChange "normal" false "replace" ["vim-normal-mode"] true).currentMode =
        "visual") ∧
    (onVimModeChange "normal" false "replace" ["vim-normal-mode"] true).classes =
      ["vim-normal-mode"] := by decide

/-- Claim C6 (amended): after a vim-mode-change event the tracked currentMode
equals whatever mode the engine reported; the editor container carries exactly
one mode class, vim-insert-mode for insert, vim-visual-mode for visual, else
vim-normal-mode; and a normal-to-insert transition sets the
justEnteredInsertMode flag. -/
theorem C6_mode_change_amended (currentMode : String) (justEntered : Bool)
    (reported : String) (classes : List String) :
    (onVimModeChange currentMode justEntered reported classes true).currentMode =
      reported ∧
    ((onVimModeChange currentMode justEntered reported classes true).classes.filter
      (fun cl => modeClasses.contains cl)) = [modeClassFor reported] ∧
    (currentMode = "normal" → reported = "insert" →
      (onVimModeChange currentMode justEntered reported classes true).justEnteredInsertMode =
        true) := by
  refine ⟨rfl, ?_, ?_⟩
  · by_cases h1 : reported = "insert"
    · simp only [onVimModeChange, modeClassFor, if_pos h1, if_pos rfl]
      rw [if_pos trivial, filter_mode_classes_of_removed, if_pos (by decide)]
    · by_cases h2 : reported = "visual"
      · simp only [onVimModeChange, modeClassFor, if_neg h1, if_pos h2, if_pos rfl]
        rw [if_pos trivial, filter_mode_classes_of_removed, if_pos (by decide)]
      · simp only [onVimModeChange, modeClassFor, if_neg h1, if_neg h2, if_pos rfl]
        rw [if_pos trivial, filter_mode_classes_of_removed, if_pos (by decide)]
  · intro h1 h2
    simp only [onVimModeChange, if_pos (And.intro h1 h2)]

/-- Witness for C6 at a concrete input: a normal-to-insert transition flags
justEnteredInsertMode and styles the container vim-insert-mode. -/
theorem C6_mode_change_amended_witness :
    (onVimModeChange "normal" false "insert" ["x"] true).justEnteredInsertMode = true ∧
    ((onVimModeChange "normal" false "insert" ["x"] true).classes.filter
      (fun cl => modeClasses.contains cl)) = ["vim-insert-mode"] := by
  have h := C6_mode_change_amended "normal" false "insert" ["x"]
  exact ⟨h.2.2 rfl rfl, h.2.1.trans (by decide)⟩

/-- Claim C10 counterexample: when the first CDN script fails to load, start
shows the failure toast and sets up nothing, but the script element appended by
loadScript remains in document.head, so the page DOM is not unchanged. -/
theorem C10_start_counterexample :
    (start ⟨false, false, false, false⟩ none ⟨[], [], []⟩).errorToasts = 1 ∧
    (start ⟨false, false, false, false⟩ none ⟨[], [], []⟩).scriptsAppended = 1 ∧
    ¬ (start ⟨false, false, false, false⟩ none ⟨[], [], []⟩).scriptsAppended = 0 := by
  decide

/-- Claim C10 (amended): if loading the editor library fails, start shows a
single error toast and returns before setting up channel or draft listeners,
adding styles, or starting the observer, leaving the plugin state maps
unchanged; the only DOM change is the one or two script elements appended
while attempting the load. -/
theorem C10_start_failure_atomic (env : AceEnv) (store : Option SavedData)
    (st : DraftState) (h : (loadAceEditor env).1 = false) :
    (start env store st).errorToasts = 1 ∧
    (start env store st).channelListenerSetup = false ∧
    (start env store st).draftListenerSetup = false ∧
    (start env store st).stylesAdded = false ∧
    (start env store st).observerStarted = false ∧
    (start env store st).aceLoaded = false ∧
    (start env store st).st = st ∧
    1 ≤ (start env store st).scriptsAppended ∧
    (start env store st).scriptsAppended ≤ 2 := by
  have hb : 1 ≤ (loadAceEditor env).2 ∧ (loadAceEditor env).2 ≤ 2 := by
    unfold loadAceEditor at h ⊢
    split_ifs at h ⊢ <;> simp_all
  simp only [start, h, if_pos rfl]
  exact ⟨rfl, rfl, rfl, rfl, rfl, rfl, rfl, hb.1, hb.2⟩

/-- Witness for C10 at a concrete failing environment. -/
theorem C10_start_failure_atomic_witness :
    (start ⟨false, true, true, false⟩ none ⟨[("a", "d")], [], []⟩).channelListenerSetup =
      false ∧
    (start ⟨false, true, true, false⟩ none ⟨[("a", "d")], [], []⟩).st =
      ⟨[("a", "d")], [], []⟩ ∧
    (start ⟨false, true, true, false⟩ none ⟨[("a", "d")], [], []⟩).errorToasts = 1 := by
  have h := C10_start_failure_atomic ⟨false, true, true, false⟩ none
    ⟨[("a", "d")], [], []⟩ (by decide)
  exact ⟨h.2.1, h.2.2.2.2.2.2.1, h.1⟩

/-- Positive branch of the insertion phase of handleKeydown. -/
theorem insertPhase_pos (ctx : KdCtx) (e : KeyEvent) (seqs : KeySequences)
    (h : ¬ (ctx.justEnteredInsertMode = true ∧ e.key ∈ vimModeChangeKeys) ∧
      ctx.currentMode = "insert" ∧ e.key.length = 1 ∧ e.ctrlKey = false ∧
      e.altKey = false ∧ e.metaKey = false) :
    insertPhase ctx e seqs =
      { noKeydownEffect seqs with prevented := true, inserted := some e.key } := by
  simp only [insertPhase]
  rw [if_pos h]

/-- Negative branch of the insertion phase of handleKeydown. -/
theorem insertPhase_neg (ctx : KdCtx) (e : KeyEvent) (seqs : KeySequences)
    (h : ¬ (¬ (ctx.justEnteredInsertMode = true ∧ e.key ∈ vimModeChangeKeys) ∧
      ctx.currentMode = "insert" ∧ e.key.length = 1 ∧ e.ctrlKey = false ∧
      e.altKey = false ∧ e.metaKey = false)) :
    insertPhase ctx e seqs = noKeydownEffect seqs := by
  simp only [insertPhase]
  rw [if_neg h]

/-- Keydown context with an in-progress jk sequence (buffer holds j). -/
def seqCtx : KdCtx where
  config := defaultConfig
  currentMode := "insert"
  justEnteredInsertMode := false
  isEditMode := false
  vimModePresent := true
  editorDestroyed := false
  editorValue := "j"
  st := ⟨[], [], []⟩
  channelId := some "c"
  draftActionsPresent := true
  now := 500
  pos := ⟨0, 1⟩
  keySequences := [("jk", ⟨["j"], 400, 1000, "<Esc>", "insert"⟩)]

/-- The same context with no configured sequences. -/
def plainCtx : KdCtx := { seqCtx with keySequences := [] }

/-- Claim C1 counterexample: in insert mode, with the single-character key k, no
modifier held and no just-entered-insert window, a pending jk sequence consumes
the keystroke and nothing is inserted, contradicting the claim that such a key
is always inserted literally. -/
theorem C1_keydown_counterexample :
    seqCtx.currentMode = "insert" ∧
    "k".length = 1 ∧
    seqCtx.justEnteredInsertMode = false ∧
    (handleKeydown seqCtx { key := "k" }).prevented = true ∧
    (handleKeydown seqCtx { key := "k" }).inserted = none := by decide

/-- Claim C1 (amended): for a keydown that is not an IME composition, not
Enter-without-Shift, with a live editor, and not consumed by the multi-key
sequence handler: in insert mode a single-character key without ctrl/alt/meta
and outside the just-entered-insert window is consumed and inserted literally;
for every other key, or outside insert mode, nothing is inserted and the event
is left to the modal engine. -/
theorem C1_keydown_insert_routing (ctx : KdCtx) (e : KeyEvent)
    (hdest : ctx.editorDestroyed = false)
    (hcomp : e.isComposing = false)
    (henter : ¬ (e.key = "Enter" ∧ e.shiftKey = false))
    (hseq : (handleKeySequence ctx.currentMode e ctx.now ctx.pos
        ctx.vimModePresent ctx.keySequences).consumed = false) :
    ((ctx.currentMode = "insert" ∧ e.key.length = 1 ∧ e.ctrlKey = false ∧
        e.altKey = false ∧ e.metaKey = false ∧
        ¬ (ctx.justEnteredInsertMode = true ∧ e.key ∈ vimModeChangeKeys)) →
      (handleKeydown ctx e).prevented = true ∧
      (handleKeydown ctx e).inserted = some e.key) ∧
    ((ctx.currentMode ≠ "insert" ∨ ¬ (e.key.length = 1 ∧ e.ctrlKey = false ∧
        e.altKey = false ∧ e.metaKey = false) ∨
      (ctx.justEnteredInsertMode = true ∧ e.key ∈ vimModeChangeKeys)) →
      (handleKeydown ctx e).prevented = false ∧
      (handleKeydown ctx e).inserted = none) := by
  by_cases hproc : e.key = "Process"
  · have hres : handleKeydown ctx e = noKeydownEffect ctx.keySequences := by
      simp only [handleKeydown]
      rw [if_neg (by simp [hdest]), if_pos (Or.inr hproc)]
    constructor
    · intro hc
      exfalso
      rw [hproc] at hc
      exact absurd hc.2.1 (by decide)
    · intro _
      rw [hres]
      exact ⟨rfl, rfl⟩
  · constructor
    · intro hc
      simp only [handleKeydown]
      rw [if_neg (by simp [hdest]), if_neg (by simp [hcomp, hproc]),
        if_neg henter, if_pos ⟨hc.1, hc.2.1⟩, if_neg (by simp [hseq]),
        insertPhase_pos ctx e _
          ⟨hc.2.2.2.2.2, hc.1, hc.2.1, hc.2.2.1, hc.2.2.2.1, hc.2.2.2.2.1⟩]
      exact ⟨rfl, rfl⟩
    · intro hc
      simp only [handleKeydown]
      rw [if_neg (by simp [hdest]), if_neg (by simp [hcomp, hproc]), if_neg henter]
      by_cases hmain : ctx.currentMode = "insert" ∧ e.key.length = 1
      · rw [if_pos hmain, if_neg (by simp [hseq]),
          insertPhase_neg ctx e _ (by tauto)]
        exact ⟨rfl, rfl⟩
      · rw [if_neg hmain, insertPhase_neg ctx e _ (by tauto)]
        exact ⟨rfl, rfl⟩

/-- Witness for C1 at a concrete input: with no sequences configured, the key x
in insert mode is consumed and inserted literally. -/
theorem C1_keydown_insert_routing_witness :
    (handleKeydown plainCtx { key := "x" }).prevented = true ∧
    (handleKeydown plainCtx { key := "x" }).inserted = some "x" :=
  (C1_keydown_insert_routing plainCtx { key := "x" } (by decide) (by decide)
    (by decide) (by decide)).1 (by decide)

/-- Claim C4 counterexample: a fresh non-empty draft (hello) for the current
channel, not previously processed and not contained in the (empty) editor,
inserts nothing, because the editor is empty while a non-whitespace cached
draft exists; the claim says the whole trimmed draft would be inserted. -/
theorem C4_draft_change_counterexample :
    jsTrim "hello" ≠ "" ∧
    "hello" ≠ lastProcessedOf ⟨[("c", "hello")], [("c", "x")], []⟩ "c" ∧
    strIncludes "" (jsTrim "hello") = false ∧
    (handleDraftChange ⟨[("c", "hello")], [("c", "x")], []⟩
      (some "c") "c" true "" 0).inserted = none ∧
    (handleDraftChange ⟨[("c", "hello")], [("c", "x")], []⟩
      (some "c") "c" true "" 0).editorValue = "" := by decide

/-- Claim C4 (amended): for a draft-change event on the current channel with an
active editor and a stored draft: nothing is inserted when the draft is
whitespace-only, equals the last-processed draft, is already contained in the
editor text, when the editor is empty while a non-whitespace cached draft
exists (channel-load guard), or when the computed new content trims to empty;
otherwise the new content (the trimmed suffix when the draft strictly extends
the last-processed draft as a prefix, else the whole trimmed draft) is inserted
at the cursor, the draft is recorded as last-processed, the host draft is
cleared, and the cache is set to the editor content after the insertion. -/
theorem C4_draft_change_reconciliation (st : DraftState) (c : String)
    (editorValue : String) (cursorOff : Nat) (draft : String)
    (hdraft : mapGet st.drafts c = some draft) :
    (jsTrim draft = "" →
      (handleDraftChange st (some c) c true editorValue cursorOff).inserted = none ∧
      (handleDraftChange st (some c) c true editorValue cursorOff).editorValue =
        editorValue) ∧
    (draft = lastProcessedOf st c →
      (handleDraftChange st (some c) c true editorValue cursorOff).inserted = none ∧
      (handleDraftChange st (some c) c true editorValue cursorOff).editorValue =
        editorValue) ∧
    (strIncludes editorValue (jsTrim draft) = true →
      (handleDraftChange st (some c) c true editorValue cursorOff).inserted = none ∧
      (handleDraftChange st (some c) c true editorValue cursorOff).editorValue =
        editorValue) ∧
    (jsTrim editorValue = "" → hasCachedDraft st c = true →
      (handleDraftChange st (some c) c true editorValue cursorOff).inserted = none ∧
      (handleDraftChange st (some c) c true editorValue cursorOff).editorValue =
        editorValue) ∧
    (newDraftContent (lastProcessedOf st c) draft = "" →
      (handleDraftChange st (some c) c true editorValue cursorOff).inserted = none ∧
      (handleDraftChange st (some c) c true editorValue cursorOff).editorValue =
        editorValue) ∧
    (jsTrim draft ≠ "" → draft ≠ lastProcessedOf st c →
      strIncludes editorValue (jsTrim draft) = false →
      ¬ (jsTrim editorValue = "" ∧ hasCachedDraft st c = true) →
      newDraftContent (lastProcessedOf st c) draft ≠ "" →
      (handleDraftChange st (some c) c true editorValue cursorOff).inserted =
        some (newDraftContent (lastProcessedOf st c) draft) ∧
      (handleDraftChange st (some c) c true editorValue cursorOff).editorValue =
        insertAt editorValue cursorOff (newDraftContent (lastProcessedOf st c) draft) ∧
      mapGet (handleDraftChange st (some c) c true editorValue
        cursorOff).st.lastProcessedDraft c = some draft ∧
      mapGet (handleDraftChange st (some c) c true editorValue
        cursorOff).st.drafts c = none ∧
      mapGet (handleDraftChange st (some c) c true editorValue
        cursorOff).st.draftCache c =
        some (insertAt editorValue cursorOff
          (newDraftContent (lastProcessedOf st c) draft))) := by
  have hne : ¬ (c ≠ c) := by simp
  refine ⟨?_, ?_, ?_, ?_, ?_, ?_⟩
  · intro h1
    simp only [handleDraftChange, hdraft, Option.getD_some]
    rw [if_neg hne, if_pos h1]
    exact ⟨rfl, rfl⟩
  · intro h1
    simp only [handleDraftChange, hdraft, Option.getD_some]
    rw [if_neg hne]
    by_cases h0 : jsTrim draft = ""
    · rw [if_pos h0]
      exact ⟨rfl, rfl⟩
    · rw [if_neg h0, if_pos h1.symm]
      exact ⟨rfl, rfl⟩
  · intro h1
    simp only [handleDraftChange, hdraft, Option.getD_some]
    rw [if_neg hne]
    by_cases h0 : jsTrim draft = ""
    · rw [if_pos h0]
      exact ⟨rfl, rfl⟩
    · rw [if_neg h0]
      by_cases h2 : lastProcessedOf st c = draft
      · rw [if_pos h2]
        exact ⟨rfl, rfl⟩
      · rw [if_neg h2, if_neg (by decide), if_pos h1]
        exact ⟨rfl, rfl⟩
  · intro h1 h2
    simp only [handleDraftChange, hdraft, Option.getD_some]
    rw [if_neg hne]
    by_cases h0 : jsTrim draft = ""
    · rw [if_pos h0]
      exact ⟨rfl, rfl⟩
    · rw [if_neg h0]
      by_cases h3 : lastProcessedOf st c = draft
      · rw [if_pos h3]
        exact ⟨rfl, rfl⟩
      · rw [if_neg h3, if_neg (by decide)]
        by_cases h4 : strIncludes editorValue (jsTrim draft) = true
        · rw [if_pos h4]
          exact ⟨rfl, rfl⟩
        · rw [if_neg h4, if_pos ⟨h1, h2⟩]
          exact ⟨rfl, rfl⟩
  · intro h1
    simp only [handleDraftChange, hdraft, Option.getD_some]
    rw [if_neg hne]
    by_cases h0 : jsTrim draft = ""
    · rw [if_pos h0]
      exact ⟨rfl, rfl⟩
    · rw [if_neg h0]
      by_cases h3 : lastProcessedOf st c = draft
      · rw [if_pos h3]
        exact ⟨rfl, rfl⟩
      · rw [if_neg h3, if_neg (by decide)]
        by_cases h4 : strIncludes editorValue (jsTrim draft) = true
        · rw [if_pos h4]
          exact ⟨rfl, rfl⟩
        · rw [if_neg h4]
          by_cases h5 : jsTrim editorValue = "" ∧ hasCachedDraft st c = true
          · rw [if_pos h5]
            exact ⟨rfl, rfl⟩
          · rw [if_neg h5, if_pos h1]
            exact ⟨rfl, rfl⟩
  · intro h1 h2 h3 h4 h5
    simp only [handleDraftChange, hdraft, Option.getD_some]
    rw [if_neg hne, if_neg h1, if_neg (fun heq => h2 heq.symm),
      if_neg (by decide), if_neg (by simp [h3]), if_neg h4, if_neg h5]
    exact ⟨rfl, rfl, mapGet_set_self _ _ _, mapGet_delete_self _ _,
      mapGet_set_self _ _ _⟩

/-- Witness for C4 at a concrete input: draft hi :) extending last-processed
hi , the trimmed suffix :) is inserted and the host draft cleared. -/
theorem C4_draft_change_reconciliation_witness :
    (handleDraftChange ⟨[("c", "hi :)")], [], [("c", "hi ")]⟩
      (some "c") "c" true "hi " 3).inserted = some ":)" ∧
    mapGet (handleDraftChange ⟨[("c", "hi :)")], [], [("c", "hi ")]⟩
      (some "c") "c" true "hi " 3).st.drafts "c" = none := by
  have h := C4_draft_change_reconciliation ⟨[("c", "hi :)")], [], [("c", "hi ")]⟩
    "c" "hi " 3 "hi :)" (by decide)
  have h6 := h.2.2.2.2.2 (by decide) (by decide) (by decide) (by decide) (by decide)
  exact ⟨h6.1.trans (by decide), h6.2.2.2.1⟩

end VimMotions
